import Mathlib

/-!
Shallow embedding of the ulmld static linker (src/ulmld.cpp together with
src/archive-reader.hpp and src/ulmranlib_mkindex.cpp).

Modelling conventions:
* C++ `std::uint64_t` values are `Nat` together with explicit reduction
  modulo `2^64` (`add64`, `sub64`) at every operation where the C++ code
  performs 64-bit wrap-around arithmetic.  Offsets into a segment stay far
  below `2^64`, so plain `Nat` addition represents the index arithmetic
  `addr + i` of the byte loops.
* `std::map<std::uint64_t, unsigned char>` (the sparse segment store) is an
  association list with distinct keys (`mapSet` updates in place or appends);
  `size()` is the number of entries, exactly as for the C++ map.
* `std::map<std::string, member>` (the archive directory) is an association
  list kept sorted by the byte-lexicographic string order `charListLt`,
  mirroring `std::map` key order; a duplicate insertion fails like
  `members.insert` does in `archive_reader::scan`.
* iostream extraction is modelled on `List Char`: skip whitespace, read the
  token/number; a failed numeric extraction yields 0 (C++11 `num_get`
  semantics) and an overflowing unsigned extraction saturates at the maximal
  value.
* Exceptions and `assert` failures are `Except String`; on an error the whole
  link job aborts, so no state escapes.
* Decorative state (annotations, labels, headers, the emitter) is omitted:
  it only affects the pretty-printed output, none of the linking semantics.
* The unbounded C++ loops (`while (1)` around the symbol-table index and the
  group `do ... while`) take an explicit fuel argument; exhausting it yields
  an error that no run in this file reaches.
* `call_start.hpp` is not part of the repository sources.  It is textually
  included in `main` before the argument loop runs, so it cannot observe the
  parsed `-textseg` value; modelled from the spec: it only provides the `ulm`
  runtime name used by the emitter and is semantically a no-op here.
-/

namespace Ulmld

/-- 2^64, the modulus of `std::uint64_t` arithmetic. -/
def P64 : Nat := 18446744073709551616

/-- 64-bit wrap-around addition. -/
def add64 (a b : Nat) : Nat := (a + b) % P64

/-- 64-bit wrap-around subtraction `a - b` (as `std::uint64_t`). -/
def sub64 (a b : Nat) : Nat := (a % P64 + (P64 - b % P64)) % P64

/-- `alignAddr` from ulmld.cpp: round `addr` up to a multiple of `alignTo`. -/
def alignAddr (addr alignTo : Nat) : Nat := ((addr + alignTo - 1) / alignTo) * alignTo

/-- `std::map` `operator[]` assignment: update the entry in place, or append a
new one.  Keys stay distinct. -/
def mapSet (m : List (Nat × Nat)) (k v : Nat) : List (Nat × Nat) :=
  match m with
  | [] => [(k, v)]
  | (k', v') :: rest => if k = k' then (k, v) :: rest else (k', v') :: mapSet rest k v

/-- `std::map::find` / `count`: look a key up. -/
def mapLookup (m : List (Nat × Nat)) (k : Nat) : Option Nat :=
  match m with
  | [] => none
  | (k', v') :: rest => if k = k' then some v' else mapLookup rest k

/-- The key set of the sparse byte store. -/
def mapKeys (m : List (Nat × Nat)) : List Nat := m.map Prod.fst

/-- String-keyed map assignment (for `symTab` and friends). -/
def strMapSet {α : Type} (m : List (String × α)) (k : String) (v : α) : List (String × α) :=
  match m with
  | [] => [(k, v)]
  | (k', v') :: rest => if k == k' then (k, v) :: rest else (k', v') :: strMapSet rest k v

/-- String-keyed map lookup. -/
def strMapLookup {α : Type} (m : List (String × α)) (k : String) : Option α :=
  match m with
  | [] => none
  | (k', v') :: rest => if k == k' then some v' else strMapLookup rest k

/-- `std::map<std::string, std::vector<α>>` `operator[]` followed by
`push_back`. -/
def lstAppend {α : Type} (m : List (String × List α)) (k : String) (v : α) :
    List (String × List α) :=
  match m with
  | [] => [(k, [v])]
  | (k', vs) :: rest =>
    if k == k' then (k', vs ++ [v]) :: rest else (k', vs) :: lstAppend rest k v

/-- `std::set<std::string>::insert`. -/
def setInsert (s : List String) (x : String) : List String :=
  if s.contains x then s else s ++ [x]

/-- `std::set<std::string>::erase`. -/
def setErase (s : List String) (x : String) : List String :=
  s.filter (fun y => y != x)

/-- C `isspace` on the characters that can occur in a text line. -/
def isSpaceCC (c : Char) : Bool :=
  c == ' ' || c == '\t' || c == '\n' || c == '\r' || c == '\x0b' || c == '\x0c'

/-- Value of a hexadecimal digit. -/
def hexDigitVal (c : Char) : Option Nat :=
  if '0' ≤ c ∧ c ≤ '9' then some (c.toNat - '0'.toNat)
  else if 'a' ≤ c ∧ c ≤ 'f' then some (c.toNat - 'a'.toNat + 10)
  else if 'A' ≤ c ∧ c ≤ 'F' then some (c.toNat - 'A'.toNat + 10)
  else none

/-- Value of a decimal digit. -/
def decDigitVal (c : Char) : Option Nat :=
  if '0' ≤ c ∧ c ≤ '9' then some (c.toNat - '0'.toNat) else none

/-- Skip leading whitespace (iostream extraction always does). -/
def skipWsCC : List Char → List Char
  | [] => []
  | c :: cs => if isSpaceCC c then skipWsCC cs else c :: cs

/-- Accumulate a whitespace-delimited token. -/
def takeTokAcc : List Char → List Char → (List Char × List Char)
  | acc, [] => (acc.reverse, [])
  | acc, c :: cs => if isSpaceCC c then (acc.reverse, c :: cs) else takeTokAcc (c :: acc) cs

/-- `istream >> std::string`: skip whitespace, read one token. -/
def takeTok (cs : List Char) : (String × List Char) :=
  let p := takeTokAcc [] (skipWsCC cs)
  (⟨p.1⟩, p.2)

/-- `istream >> char`: skip whitespace, read one character (a failed
extraction leaves the variable unset; we produce NUL). -/
def takeCharTok (cs : List Char) : (Char × List Char) :=
  match skipWsCC cs with
  | [] => ('\x00', [])
  | c :: rest => (c, rest)

/-- Accumulate digits of the given base; the flag records whether at least one
digit was read. -/
def takeDigits (base : Nat) (dv : Char → Option Nat) : Nat → Bool → List Char →
    (Nat × Bool × List Char)
  | acc, got, [] => (acc, got, [])
  | acc, got, c :: cs =>
    match dv c with
    | some d => takeDigits base dv (acc * base + d) true cs
    | none => (acc, got, c :: cs)

/-- `istream >> std::uint64_t` (with `std::hex` for base 16): skip whitespace,
accept an optional `0x` prefix in hex mode, read digits.  No digit yields 0,
overflow saturates at the maximal unsigned value (C++11 `num_get`). -/
def parseU64 (base : Nat) (dv : Char → Option Nat) (cs : List Char) : (Nat × List Char) :=
  let cs := skipWsCC cs
  let cs := if base == 16 then
      (match cs with
       | '0' :: 'x' :: rest => rest
       | '0' :: 'X' :: rest => rest
       | _ => cs)
    else cs
  let p := takeDigits base dv 0 false cs
  (if p.2.1 then min p.1 (P64 - 1) else 0, p.2.2)

/-- Hexadecimal unsigned extraction. -/
def parseHexTok (cs : List Char) : (Nat × List Char) := parseU64 16 hexDigitVal cs

/-- Decimal unsigned extraction. -/
def parseDecTok (cs : List Char) : (Nat × List Char) := parseU64 10 decDigitVal cs

/-- `istream >> std::int64_t`: optional sign, decimal digits, saturation at the
`int64` bounds. -/
def parseInt64Tok (cs : List Char) : (Int × List Char) :=
  match skipWsCC cs with
  | '+' :: rest =>
    let p := takeDigits 10 decDigitVal 0 false rest
    (if p.2.1 then (min p.1 (2 ^ 63 - 1) : Nat) else 0, p.2.2)
  | '-' :: rest =>
    let p := takeDigits 10 decDigitVal 0 false rest
    (if p.2.1 then -((min p.1 (2 ^ 63) : Nat) : Int) else 0, p.2.2)
  | cs' =>
    let p := takeDigits 10 decDigitVal 0 false cs'
    (if p.2.1 then (p.1 : Int) else 0, p.2.2)

/-- `line.find(p) == 0`. -/
def startsWithCC : List Char → List Char → Bool
  | _, [] => true
  | [], _ :: _ => false
  | a :: as, b :: bs => a == b && startsWithCC as bs

/-- `ident[0] == c`-style check, on whole strings. -/
def strStarts (s p : String) : Bool := startsWithCC s.data p.data

/-- `std::string::substr(n)` (ASCII). -/
def strDrop (s : String) (n : Nat) : String := ⟨s.data.drop n⟩

/-- Erase everything from the first `#` on (`line.erase(find(line, '#'), end)`). -/
def stripComment : List Char → List Char
  | [] => []
  | c :: rest => if c == '#' then [] else c :: stripComment rest

/-- Remove all whitespace (`line.erase(remove_if(isspace))`). -/
def eraseSpaces (cs : List Char) : List Char := cs.filter (fun c => !isSpaceCC c)

/-- `line.substr(line.find(ch) + 1)`. -/
def dropThrough (ch : Char) : List Char → List Char
  | [] => []
  | c :: rest => if c == ch then rest else dropThrough ch rest

/-- A text/data/bss segment (`struct Segment` of ulmld.cpp).  The decorative
`annotation`, `label` and `header` maps only feed the pretty printer and are
omitted. -/
structure Segment where
  alignment : Nat := 1
  baseAddr : Nat := 0
  fill : Nat := 0xFD
  memory : List (Nat × Nat) := []
  mark : List (String × Nat) := []


/-- `Segment::size`: the number of stored bytes (`memory.size()`). -/
def Segment.size (s : Segment) : Nat := s.memory.length

/-- `Segment::appendByte`: store at offset `size()`. -/
def Segment.appendByte (s : Segment) (b : Nat) : Segment :=
  { s with memory := mapSet s.memory s.size (b % 256) }

/-- Append `n` fill bytes (the loop body of `Segment::advanceTo`). -/
def Segment.pad (s : Segment) : Nat → Segment
  | 0 => s
  | n + 1 => (s.appendByte s.fill).pad n

/-- `Segment::advanceTo`: subtract `baseAddr`, require `addr >= size()`
(assert), fill the gap with the fill byte. -/
def Segment.advanceTo (s : Segment) (addr : Nat) : Except String Segment :=
  let a := sub64 addr s.baseAddr
  if a < s.size then .error "ulmld: assert failed: advanceTo moves backwards"
  else .ok (s.pad (a - s.size))

/-- `Segment::setMark`: record the current size for a source file. -/
def Segment.setMark (s : Segment) (filename : String) : Segment :=
  { s with mark := strMapSet s.mark filename s.size }

/-- `Segment::getMark`: `baseAddr + mark[filename]` (`operator[]` defaults
to 0). -/
def Segment.getMark (s : Segment) (filename : String) : Nat :=
  add64 s.baseAddr ((strMapLookup s.mark filename).getD 0)

/-- `Segment::isAtMark`. -/
def Segment.isAtMark (s : Segment) (filename : String) : Bool :=
  (strMapLookup s.mark filename).getD 0 == s.size

/-- `Segment::setAlignment`: assert `baseAddr % alignment == 0`, raise the
alignment, advance to the next aligned size. -/
def Segment.setAlignment (s : Segment) (a : Nat) : Except String Segment :=
  if s.baseAddr % a ≠ 0 then .error "ulmld: assert failed: baseAddr not aligned"
  else
    let s' : Segment := { s with alignment := if a > s.alignment then a else s.alignment }
    s'.advanceTo (alignAddr s'.size s'.alignment)

/-- `Segment::setBaseAddr`: assert alignment, then freeze the base address. -/
def Segment.setBaseAddr (s : Segment) (b : Nat) : Except String Segment :=
  if b % s.alignment ≠ 0 then .error "ulmld: assert failed: base address not aligned"
  else .ok { s with baseAddr := b }

/-- `Segment::getEndAddr`. -/
def Segment.getEndAddr (s : Segment) : Nat := add64 s.baseAddr s.size

/-- `Segment::requiresAdvanceTo`: `addr - baseAddr > size()`. -/
def Segment.requiresAdvanceTo (s : Segment) (addr : Nat) : Bool :=
  decide (sub64 addr s.baseAddr > s.size)

/-- The descending store loop of `Segment::patchBytes`: for
`i = numBytes; i-- > 0;` store the current low byte of `value` at
`addr + i`, then shift `value` right by 8.  The least-significant byte thus
lands at the HIGHEST offset of the patched range. -/
def patchBytesLoop (m : List (Nat × Nat)) (off : Nat) : Nat → Nat → List (Nat × Nat)
  | 0, _ => m
  | i + 1, value => patchBytesLoop (mapSet m (off + i) (value % 256)) off i (value / 256)

/-- `Segment::patchBytes`. -/
def Segment.patchBytes (s : Segment) (addr numBytes value : Nat) : Segment :=
  { s with memory := patchBytesLoop s.memory (sub64 addr s.baseAddr) numBytes (value % P64) }

/-- Parse the successive 2-character groups of a byte string the way
`Segment::insertByteString` does: each pair goes through
`istringstream >> std::hex >> byte`, and a failed extraction stores 0
(C++11) after a diagnostic on stderr. -/
def hexPairs : List Char → List Nat
  | a :: b :: rest => (parseHexTok [a, b]).1 % 256 :: hexPairs rest
  | _ => []

/-- Store a list of bytes at consecutive offsets (the store loop of
`Segment::insertByteString`). -/
def insertBytes (m : List (Nat × Nat)) (off : Nat) : List Nat → List (Nat × Nat)
  | [] => m
  | b :: bs => insertBytes (mapSet m off b) (off + 1) bs

/-- `Segment::insertByteString`: subtract `baseAddr`, advance if required
(the inner check subtracts `baseAddr` a second time, exactly as the C++ code
does), assert an even number of hex digits, store the bytes.  A non-hex pair
is NOT an error: it stores 0 and the link continues. -/
def Segment.insertByteString (s : Segment) (addr : Nat) (hexDigits : String) :
    Except String Segment :=
  (if s.requiresAdvanceTo (sub64 addr s.baseAddr) then s.advanceTo (sub64 addr s.baseAddr)
   else .ok s).bind (fun t =>
    if hexDigits.data.length % 2 ≠ 0 then
      .error "ulmld: assert failed: odd number of hex digits"
    else
      .ok { t with memory := insertBytes t.memory (sub64 addr s.baseAddr) (hexPairs hexDigits.data) })

/-- A symbol-table entry: `{ kind, value }`. -/
abbrev SymEntry := Char × Nat

/-- `ObjectFile::FixEntry`. -/
structure FixEntry where
  segment : String
  kind : String
  addr : Nat
  offset : Nat
  numBytes : Nat
  displace : Int


/-- The linker state (`struct ObjectFile`), with its three segments. -/
structure ObjectFile where
  text : Segment := {}
  data : Segment := {}
  bss : Segment := {}
  symTab : List (String × SymEntry) := []
  localSymTab : List (String × List SymEntry) := []
  unresolved : List String := []
  fixables : List (String × List FixEntry) := []
  libpath : List String := []


/-- `segments[i]` for `i = 0, 1, 2`. -/
def ObjectFile.getSeg (o : ObjectFile) : Nat → Segment
  | 0 => o.text
  | 1 => o.data
  | _ => o.bss

/-- Write back `segments[i]`. -/
def ObjectFile.setSeg (o : ObjectFile) (i : Nat) (s : Segment) : ObjectFile :=
  match i with
  | 0 => { o with text := s }
  | 1 => { o with data := s }
  | _ => { o with bss := s }

/-- The bit-to-byte conversion of the `#FIXUPS` parser (ulmld.cpp lines
643-647): `assert(offset % 8 == 0); assert(numBytes % 4 == 0);
offset /= 8; numBytes /= 8;`.  Note the second assert checks divisibility
by 4, not by 8, while the division is by 8 with truncation. -/
def parseFixupFields (offset numBytes : Nat) : Except String (Nat × Nat) :=
  if offset % 8 ≠ 0 then .error "ulmld: assert failed: offset % 8 == 0"
  else if numBytes % 4 ≠ 0 then .error "ulmld: assert failed: numBytes % 4 == 0"
  else .ok (offset / 8, numBytes / 8)

/-- One `#SYMTAB` entry (the `seg == 3` branch of `ObjectFile::readSegments`):
the switch (with its `T` into `t` fall-through) biases the value by the
segment's mark and erases upper-case definitions from the unresolved set,
then the entry is routed to the unresolved set, dropped for `.`-idents,
appended to the local table, or inserted into the global table with a
"multiple definition" error on a duplicate. -/
def symStep (source : String) (o : ObjectFile) (kind : Char) (ident : String)
    (value0 : Nat) : Except String ObjectFile :=
  let p : ObjectFile × Nat :=
    if kind == 'T' then
      ({ o with unresolved := setErase o.unresolved ident },
       add64 value0 (o.text.getMark source))
    else if kind == 't' then (o, add64 value0 (o.text.getMark source))
    else if kind == 'D' then
      ({ o with unresolved := setErase o.unresolved ident },
       add64 value0 (o.data.getMark source))
    else if kind == 'd' then (o, add64 value0 (o.data.getMark source))
    else if kind == 'B' then
      ({ o with unresolved := setErase o.unresolved ident },
       add64 value0 (o.bss.getMark source))
    else if kind == 'b' then (o, add64 value0 (o.bss.getMark source))
    else (o, value0)
  let o := p.1
  let value := p.2
  if kind == 'U' then
    .ok (match strMapLookup o.symTab ident with
         | none => { o with unresolved := setInsert o.unresolved ident }
         | some e =>
           if e.1.isUpper then o
           else { o with unresolved := setInsert o.unresolved ident })
  else if strStarts ident "." then .ok o
  else if kind.toUpper != kind then
    .ok { o with localSymTab := lstAppend o.localSymTab ident (kind, value) }
  else
    match strMapLookup o.symTab ident with
    | some _ => .error (" multiple definition of `" ++ ident)
    | none => .ok { o with symTab := strMapSet o.symTab ident (kind, value) }

/-- Parse one `#SYMTAB` line: `kind ident hex-value`. -/
def symLine (source : String) (o : ObjectFile) (l : List Char) : Except String ObjectFile :=
  let p1 := takeCharTok l
  let p2 := takeTok p1.2
  let value := (parseHexTok p2.2).1
  symStep source o p1.1 p2.1 value

/-- Parse one `#FIXUPS` line (the `seg == 4` branch):
`segment hex-addr dec-offset-bits dec-numBytes-bits kind ident[+-displ]`. -/
def fixLine (source : String) (o : ObjectFile) (l : List Char) : Except String ObjectFile := do
  let p1 := takeTok l
  let segName := p1.1
  let p2 := parseHexTok p1.2
  let p3 := parseDecTok p2.2
  let p4 := parseDecTok p3.2
  let p5 := takeTok p4.2
  let p6 := takeTok p5.2
  let ident0 := p6.1
  let q ← parseFixupFields p3.1 p4.1
  let fixInSeg := if segName == "text" then 0 else 1
  let address := add64 p2.1 ((o.getSeg fixInSeg).getMark source)
  let r : String × Int :=
    match ident0.data.findIdx? (fun c => c == '+') with
    | some p => (⟨ident0.data.take p⟩, (parseInt64Tok (ident0.data.drop p)).1)
    | none =>
      match ident0.data.findIdx? (fun c => c == '-') with
      | some p => (⟨ident0.data.take p⟩, (parseInt64Tok (ident0.data.drop p)).1)
      | none => (ident0, 0)
  let ident := r.1
  let displace : Int :=
    if ident == "[text]" then r.2 + (o.text.getMark source : Int)
    else if ident == "[data]" then r.2 + (o.data.getMark source : Int)
    else if ident == "[bss]" then r.2 + (o.bss.getMark source : Int)
    else r.2
  .ok { o with fixables :=
          lstAppend o.fixables ident ⟨segName, p5.1, address, q.1, q.2, displace⟩ }

/-- Parser-loop state of `ObjectFile::readSegments`: the current section
index `seg` (initially `(size_t)-1`, modelled as 1000) and the function-local
`baseAddr` variable used for explicit-address byte lines. -/
structure RdState where
  o : ObjectFile
  seg : Nat
  locBase : Nat


/-- A byte line of a `#TEXT`/`#DATA` section: strip the comment and all
whitespace, take the explicit `0xADDR:` prefix if present (recording the
unit-local base when at the mark), translate by the segment's mark, reject
gaps that would need fill bytes, store the bytes. -/
def byteLine (source : String) (st : RdState) (l : List Char) : Except String RdState := do
  let line := eraseSpaces (stripComment l)
  let sgi := st.seg
  let s := st.o.getSeg sgi
  let t : Nat × Nat × List Char :=
    if line.contains ':' then
      let a := (parseHexTok line).1
      let line2 := dropThrough ':' line
      let lb := if s.isAtMark source then a else st.locBase
      (sub64 a lb, lb, line2)
    else
      let a := sub64 s.size (s.getMark source)
      let lb := if s.isAtMark source then a else st.locBase
      (a, lb, line)
  let addr := add64 t.1 (s.getMark source)
  if s.requiresAdvanceTo addr then
    .error "In segment there is a gap that would require fillin bytes"
  else do
    let s' ← s.insertByteString addr ⟨t.2.2⟩
    .ok { st with o := st.o.setSeg sgi s', locBase := t.2.1 }

/-- A `#TEXT`/`#DATA` directive: optional alignment, then set the mark. -/
def dirLine (o : ObjectFile) (source : String) (sgi : Nat) (l : List Char) :
    Except String ObjectFile := do
  let rest := eraseSpaces (l.drop 5)
  let s0 := o.getSeg sgi
  let s1 ← if rest.length > 0 then s0.setAlignment (parseDecTok rest).1 else pure s0
  pure (o.setSeg sgi (s1.setMark source))

/-- A `#BSS alignment size` directive: set the mark, assert a non-empty rest,
apply the alignment, reserve `size` bytes past the mark. -/
def bssLine (o : ObjectFile) (source : String) (l : List Char) : Except String ObjectFile := do
  let o := o.setSeg 2 ((o.getSeg 2).setMark source)
  let rest := l.drop 4
  if rest.isEmpty then .error "ulmld: assert failed: empty BSS directive"
  else do
    let p1 := parseDecTok rest
    let p2 := parseDecTok p1.2
    let s1 ← (o.getSeg 2).setAlignment p1.1
    let s2 ← if p2.1 ≠ 0 then s1.advanceTo (add64 p2.1 (s1.getMark source)) else pure s1
    pure (o.setSeg 2 s2)

/-- Dispatch one input line exactly in the order of the `while (getline)`
body of `ObjectFile::readSegments`. -/
def readLine (source : String) (st : RdState) (line : String) : Except String RdState :=
  let l := line.data
  if startsWithCC l "#TEXT".data then
    (dirLine st.o source 0 l).map (fun o => { st with o := o, seg := 0 })
  else if startsWithCC l "#DATA".data then
    (dirLine st.o source 1 l).map (fun o => { st with o := o, seg := 1 })
  else if startsWithCC l "#BSS".data then
    (bssLine st.o source l).map (fun o => { st with o := o, seg := 2 })
  else if startsWithCC l "#SYMTAB".data then .ok { st with seg := 3 }
  else if startsWithCC l "#FIXUPS".data then .ok { st with seg := 4 }
  else if startsWithCC l "#".data || l.isEmpty then .ok st
  else if st.seg == 0 || st.seg == 1 then byteLine source st l
  else if st.seg == 3 then (symLine source st.o l).map (fun o => { st with o := o })
  else if st.seg == 4 then (fixLine source st.o l).map (fun o => { st with o := o })
  else .ok st

/-- `ObjectFile::readSegments`: reject streams that do not start with `#`
("not an object file"), then fold the line dispatcher over the input. -/
def ObjectFile.readSegments (o : ObjectFile) (source : String) (lines : List String) :
    Except String ObjectFile :=
  match lines with
  | [] => .error ("not an object file " ++ source)
  | l0 :: _ =>
    if !startsWithCC l0.data "#".data then .error ("not an object file " ++ source)
    else (lines.foldlM (readLine source) ⟨o, 1000, 0⟩).map RdState.o

/-- The `relative` branch of the fixup-kind transform in `ObjectFile::link`:
require `(value - addr) % 4 == 0` in `std::uint64_t` arithmetic, then divide
by 4. -/
def relativeFix (value addr : Nat) : Except String Nat :=
  if sub64 value addr % 4 ≠ 0 then
    .error "address for relative jump is not a multiple of 4 "
  else .ok (sub64 value addr / 4)

/-- The fixup-kind transform of `ObjectFile::link`: `relative`, the 16-bit
windows `w0`..`w3` (`value >> 16k & 0xFFFF`), `absolute`, or an error. -/
def fixTransform (kind : String) (value addr : Nat) : Except String Nat :=
  if kind == "relative" then relativeFix value addr
  else if kind == "w0" then .ok (value % 65536)
  else if kind == "w1" then .ok (value / 2 ^ 16 % 65536)
  else if kind == "w2" then .ok (value / 2 ^ 32 % 65536)
  else if kind == "w3" then .ok (value / 2 ^ 48 % 65536)
  else if kind == "absolute" then .ok value
  else .error ("Can not apply a " ++ kind ++ " fix.")

/-- The body of the fixables loop in `ObjectFile::link`: compute the absolute
site, resolve the target value (pseudo-idents or the global table), transform
by kind, patch the bytes. -/
def ObjectFile.applyFix (o : ObjectFile) (textAddr dataAddr bssAddr : Nat)
    (ident : String) (f : FixEntry) : Except String ObjectFile := do
  let p : Nat × Nat ←
    if f.segment == "text" then .ok (add64 f.addr textAddr, 0)
    else if f.segment == "data" then .ok (add64 f.addr dataAddr, 1)
    else .error ("Can't apply a fix in segment " ++ f.segment)
  let addr := p.1
  let v0 : Nat := (f.displace % (P64 : Int)).toNat
  let value : Nat ←
    if ident == "[text]" then .ok (add64 v0 textAddr)
    else if ident == "[data]" then .ok (add64 v0 dataAddr)
    else if ident == "[bss]" then .ok (add64 v0 bssAddr)
    else
      match strMapLookup o.symTab ident with
      | some e => .ok (add64 v0 e.2)
      | none => .error ("Unresolved symbol " ++ ident)
  let value ← fixTransform f.kind value addr
  .ok (o.setSeg p.2 ((o.getSeg p.2).patchBytes (add64 addr f.offset) f.numBytes value))

/-- `ObjectFile::link`: place the data and bss segments after text, close the
text/data gap, relocate the global symbol values, then apply every fixup. -/
def ObjectFile.link (o : ObjectFile) : Except String ObjectFile := do
  let textAddr := o.text.baseAddr
  let dataAddr := alignAddr o.text.getEndAddr o.data.alignment
  let data' ← o.data.setBaseAddr dataAddr
  let text' ← o.text.advanceTo dataAddr
  let o := { o with text := text', data := data' }
  let bssAddr := alignAddr o.data.getEndAddr o.bss.alignment
  let bss' ← o.bss.setBaseAddr bssAddr
  let st ← o.symTab.mapM (fun e =>
    if e.2.1 = 'T' then .ok (e.1, e.2.1, add64 e.2.2 textAddr)
    else if e.2.1 = 'D' then .ok (e.1, e.2.1, add64 e.2.2 dataAddr)
    else if e.2.1 = 'B' then .ok (e.1, e.2.1, add64 e.2.2 bssAddr)
    else if e.2.1 ≠ 'A' then
      .error "Can't handle symTab kind in this case"
    else .ok e)
  let o := { o with bss := bss', symTab := st }
  o.fixables.foldlM
    (fun acc q => q.2.foldlM
      (fun a f => a.applyFix textAddr dataAddr bssAddr q.1 f) acc) o

/-- Byte-lexicographic comparison of character lists, the order of
`std::string operator<` used by `std::map<std::string, member>` in
archive-reader.hpp (all inputs here are ASCII). -/
def charListLt : List Char → List Char → Bool
  | [], [] => false
  | [], _ :: _ => true
  | _ :: _, [] => false
  | a :: as, b :: bs =>
    if a.toNat < b.toNat then true
    else if b.toNat < a.toNat then false
    else charListLt as bs

/-- `std::string` strict order on whole strings. -/
def strLtB (a b : String) : Bool := charListLt a.data b.data

/-- Insert a member into the name-keyed directory map of
`archive_reader::scan` (`std::map<std::string, member>`), keeping the list
sorted by name; a duplicate name makes the whole scan fail, as
`members.insert` returning `false` does. -/
def dirInsert (k : String) (v : List String) :
    List (String × List String) → Option (List (String × List String))
  | [] => some [(k, v)]
  | (k', v') :: rest =>
    if k == k' then none
    else if strLtB k k' then some ((k, v) :: (k', v') :: rest)
    else (dirInsert k v rest).map (fun r => (k', v') :: r)

/-- Fold of `archive_reader::scan` over the members in archive-file order,
inserting each into the name-sorted directory. -/
def buildDirectoryFrom (d : List (String × List String)) :
    List (String × List String) → Option (List (String × List String))
  | [] => some d
  | (k, v) :: rest =>
    match dirInsert k v d with
    | none => none
    | some d' => buildDirectoryFrom d' rest

/-- `archive_reader::scan`: build the member directory of an archive from its
members in file order.  Iteration over the resulting directory (the range
`begin()`..`end()` used by `ObjectFile::addLibOrObject`) is in ascending
member-name order, NOT in archive-file order. -/
def buildDirectory (ms : List (String × List String)) :
    Option (List (String × List String)) :=
  buildDirectoryFrom [] ms

/-- `archive_stream::open`: find a member body by name. -/
def lookupMember : List (String × List String) → String → Option (List String)
  | [], _ => none
  | (k, v) :: rest, n => if n == k then some v else lookupMember rest n

/-- An input file as the driver sees it: a textual object (its lines) or an
`ar` archive (members with their line contents, in archive-file order). -/
inductive FileContent where
  | object (lines : List String)
  | archive (members : List (String × List String))


/-- The file system visible to the model. -/
abbrev FS := List (String × FileContent)

/-- Look a path up in the modelled file system. -/
def fsLookup : FS → String → Option FileContent
  | [], _ => none
  | (k, v) :: rest, n => if n == k then some v else fsLookup rest n

/-- `archive_reader::open`: succeeds only on an archive file whose member
scan succeeds; the result is the name-sorted directory. -/
def openArchive (fs : FS) (name : String) : Option (List (String × List String)) :=
  match fsLookup fs name with
  | some (.archive ms) => buildDirectory ms
  | _ => none

/-- `ObjectFile::readSymtabIndex`: scan the `__SYMTAB_INDEX` lines
(`kind ident member`) for the first line whose ident is currently
unresolved. -/
def ObjectFile.readSymtabIndex (o : ObjectFile) (lines : List String) : Option String :=
  lines.findSome? (fun line =>
    let p1 := takeCharTok line.data
    let p2 := takeTok p1.2
    let p3 := takeTok p2.2
    if o.unresolved.contains p2.1 then some p3.1 else none)

/-- The `while (1)` member-pulling loop of `ObjectFile::addLibOrObject`:
as long as the index names a member for an unresolved ident, parse that
member (an absent member behaves like the failed stream the C++ code hands
to `readSegments`: "not an object file").  `fuel` bounds the unbounded C++
loop; no run in this file exhausts it. -/
def pullLoop (file : String) (dir : List (String × List String)) (idx : List String) :
    Nat → ObjectFile → Nat → Except String (ObjectFile × Nat)
  | 0, _, _ => .error "ulmld model: loop bound exceeded"
  | fuel + 1, o, res =>
    match o.readSymtabIndex idx with
    | none => .ok (o, res)
    | some member =>
      match lookupMember dir member with
      | none => .error ("not an object file " ++ file ++ "(" ++ member ++ ")")
      | some mlines => do
        let o' ← o.readSegments (file ++ "(" ++ member ++ ")") mlines
        pullLoop file dir idx fuel o' 1

/-- `ObjectFile::addLibOrObject`: resolve `-lNAME` against the library path,
open the file as an archive if possible; with an index pull members for
unresolved idents, without one parse every member in directory order; a
non-archive is parsed as a plain object unless `onlyLibs` is set (in which
case the closed archive reader yields no members and nothing happens).
Returns the state and the `resolved` flag (1 when index-driven members were
pulled). -/
def ObjectFile.addLibOrObject (o : ObjectFile) (fs : FS) (fuel : Nat) (file : String)
    (onlyLibs : Bool) : Except String (ObjectFile × Nat) :=
  let opened : Option (String × List (String × List String)) :=
    if strStarts file "-l" then
      o.libpath.findSome? (fun p =>
        let path := p ++ "/lib" ++ strDrop file 2 ++ ".a"
        (openArchive fs path).map (fun d => (path, d)))
    else (openArchive fs file).map (fun d => (file, d))
  match opened with
  | some (name, dir) =>
    (match lookupMember dir "__SYMTAB_INDEX" with
     | none =>
       (dir.foldlM (fun acc m =>
          ObjectFile.readSegments acc (name ++ "(" ++ m.1 ++ ")") m.2) o).map
         (fun o' => (o', 0))
     | some idx => pullLoop name dir idx fuel o 0)
  | none =>
    if onlyLibs then .ok (o, 0)
    else if strStarts file "-l" then .error ("can not find " ++ file)
    else
      match fsLookup fs file with
      | none => .error ("can not open " ++ file)
      | some (.object lines) => (o.readSegments file lines).map (fun o' => (o', 0))
      | some (.archive _) => .error ("not an object file " ++ file)

/-- The first pass of `main` over `argv`: collect `-L` library directories
(`-L dir` and `-Ldir`); `-L` as the last argument prints the usage and
exits. -/
def collectLibpathGo : List String → List String → Except String (List String)
  | acc, [] => .ok acc
  | acc, a :: rest =>
    if a == "-L" then
      match rest with
      | [] => .error "usage"
      | d :: rest' => collectLibpathGo (setInsert acc d) rest'
    else if strStarts a "-L" then collectLibpathGo (setInsert acc (strDrop a 2)) rest
    else collectLibpathGo acc rest

/-- Driver state of `main`'s second argument loop: the link state, the
`startAddr` variable fed by `-textseg`, and the `startGroup` optional. -/
structure DriverSt where
  o : ObjectFile
  startAddr : Nat
  startGroup : Option Nat


/-- One sweep of the `--end-group` fixed-point loop: run
`addLibOrObject(argv[g], true)` for `g` in the group span and count how many
archives pulled members. -/
def groupSweep (fs : FS) (fuel : Nat) (args : List String) :
    Nat → Nat → ObjectFile → Nat → Except String (ObjectFile × Nat)
  | _, 0, o, res => .ok (o, res)
  | g, n + 1, o, res => do
    let p ← o.addLibOrObject fs fuel (args.getD g "") true
    groupSweep fs fuel args (g + 1) n p.1 (res + (if p.2 > 0 then 1 else 0))

/-- The `do { ... } while (true)` of `--end-group`: sweep the group span
until a sweep resolves nothing. -/
def groupFix (fs : FS) (fuelPull : Nat) (args : List String) (g n : Nat) :
    Nat → ObjectFile → Except String ObjectFile
  | 0, _ => .error "ulmld model: loop bound exceeded"
  | fuel + 1, o => do
    let p ← groupSweep fs fuelPull args g n o 0
    if p.2 == 0 then .ok p.1 else groupFix fs fuelPull args g n fuel p.1

/-- The second argument loop of `main`, checked in source order: `-o`
(consumes the output name), `-textseg` (parses `argv[i+1]` as hex into
`startAddr` WITHOUT advancing `i`, so the value is re-processed as an input
token on the next iteration), `-L`/`-Ldir` (skipped here), the group
markers, and the default `addLibOrObject` call.  `--end-group` runs the
fixed-point sweep but never clears `startGroup` (the `startGroup.reset()`
call is commented out in the source). -/
def argLoop (fs : FS) (fuelPull : Nat) (args : List String) :
    Nat → Nat → DriverSt → Except String DriverSt
  | _, 0, _ => .error "ulmld model: loop bound exceeded"
  | i, fuel + 1, st =>
    match args.get? i with
    | none => .ok st
    | some a =>
      if a == "-o" then argLoop fs fuelPull args (i + 2) fuel st
      else if a == "-textseg" then
        argLoop fs fuelPull args (i + 1) fuel
          { st with startAddr := (parseHexTok (args.getD (i + 1) "").data).1 }
      else if a == "-L" then argLoop fs fuelPull args (i + 2) fuel st
      else if strStarts a "-L" then argLoop fs fuelPull args (i + 1) fuel st
      else if a == "--start-group" || a == "-(" then
        argLoop fs fuelPull args (i + 1) fuel { st with startGroup := some (i + 1) }
      else if a == "--end-group" || a == "-)" then
        match st.startGroup with
        | none => .error "missing --start-group or -("
        | some g => do
          let o' ← groupFix fs fuelPull args g (i - g) fuel st.o
          argLoop fs fuelPull args (i + 1) fuel { st with o := o' }
      else do
        let p ← st.o.addLibOrObject fs fuelPull a false
        argLoop fs fuelPull args (i + 1) fuel { st with o := p.1 }

/-- Both argument passes of `main`: collect the library path, then process
every token. -/
def processArgs (fs : FS) (fuel : Nat) (args : List String) : Except String DriverSt := do
  let lp ← collectLibpathGo [] args
  argLoop fs fuel args 0 (fuel + args.length + 1) ⟨{ libpath := lp }, 0, none⟩

/-- `main` after argument processing: a still-set `startGroup` aborts with
"--start-group not terminated" (because `--end-group` never clears it), and
otherwise the link runs.  Note that the parsed `startAddr` is dead: `main`
never applies it to any segment, so `text.baseAddr` stays 0. -/
def mainModel (fs : FS) (fuel : Nat) (args : List String) : Except String ObjectFile := do
  let st ← processArgs fs fuel args
  if st.startGroup.isSome then .error "--start-group not terminated with --end-group"
  else st.o.link

/-- The parse-phase segment operations of claim C10: `appendByte`,
`advanceTo`, `setAlignment`, and `insertByteString` behind the
`requiresAdvanceTo` gap check of `ObjectFile::readSegments`. -/
inductive SegOp where
  | append (b : Nat)
  | advance (addr : Nat)
  | align (a : Nat)
  | insertGated (addr : Nat) (hex : String)


/-- Run one parse-phase operation on a segment. -/
def Segment.runOp (s : Segment) : SegOp → Except String Segment
  | .append b => .ok (s.appendByte b)
  | .advance addr => s.advanceTo addr
  | .align a => s.setAlignment a
  | .insertGated addr hex =>
    if s.requiresAdvanceTo addr then
      .error "In segment there is a gap that would require fillin bytes"
    else s.insertByteString addr hex

/-- Run a sequence of parse-phase operations. -/
def Segment.runOps (s : Segment) (ops : List SegOp) : Except String Segment :=
  ops.foldlM Segment.runOp s

/-- A segment with two already-present bytes, used to exercise
`patchBytes`. -/
def c1seg : Segment := { memory := [(0, 0), (1, 0)] }

/-- The single object of spec scenario S1: one `#TEXT` word `00112233` at
local address 0, no symbols, no fixups. -/
def c2fs : FS := [("single.o", FileContent.object ["#TEXT", "00112233"])]

/-- Link state for spec scenario S5: two text bytes already present and a
global absolute symbol `S = 0xDEADBEEFCAFEBABE`. -/
def c3obj : ObjectFile :=
  { text := { memory := [(0, 0xFD), (1, 0xFD)] },
    symTab := [("S", ('A', 0xDEADBEEFCAFEBABE))] }

/-- The S5 fixup: kind `w1`, `numBytes = 2`, `offset = 0`, displacement 0. -/
def c3fix : FixEntry :=
  { segment := "text", kind := "w1", addr := 0, offset := 0, numBytes := 2, displace := 0 }

/-- Scenario S4: `a.o` references `p`; `libp.a` defines `p` and references
`q`; `libq.a` defines `q` and references `p`; both archives carry a
`__SYMTAB_INDEX` as `ulmranlib_mkindex` writes it. -/
def c6fs : FS :=
  [("a.o", .object ["#SYMTAB", "U p 0"]),
   ("libp.a", .archive
      [("__SYMTAB_INDEX", ["T p p.o"]),
       ("p.o", ["#SYMTAB", "T p 0", "U q 0"])]),
   ("libq.a", .archive
      [("__SYMTAB_INDEX", ["T q q.o"]),
       ("q.o", ["#SYMTAB", "T q 0", "U p 0"])])]

/-- A link state whose global table already defines `main`. -/
def c8obj : ObjectFile := { symTab := [("main", ('T', 0))] }

/-- A sample parse-phase operation sequence: append a byte, align to 4,
store two gated bytes, reserve up to offset 8. -/
def c10ops : List SegOp :=
  [.append 0xAB, .align 4, .insertGated 4 "0011", .advance 8]

/-- The segment these operations produce. -/
def c10res : Segment := (Segment.runOps {} c10ops).toOption.getD {}

/-- C1 (counterexample): the claim says `patchBytes(addr, n, value)` stores
`value` little-endian, with byte `k` of the range equal to
`(value >> (8*k)) & 0xFF`.  At `addr = 0`, `n = 2`, `value = 0x0102` the code
stores `0x01` at the lowest offset, while the claim demands
`(0x0102 >> 0) & 0xFF = 0x02` there. -/
theorem C1_counterexample :
    mapLookup (c1seg.patchBytes 0 2 0x0102).memory 0 = some 0x01 ∧
    ¬ mapLookup (c1seg.patchBytes 0 2 0x0102).memory 0 = some (0x0102 / 2 ^ (8 * 0) % 256) := by
  constructor
  · rfl
  · decide

/-- C2 (code evaluation): linking scenario S1 with `-textseg 1000` does not
produce `text.base = 0x1000`; `main` parses the value into `startAddr`
without consuming the argument, so `1000` is re-processed as an input file
and the link aborts with "can not open 1000".  Without `-textseg` the same
object links with `text.base = 0` — `startAddr` is never applied to the text
segment. -/
theorem C2_code_evaluation :
    mainModel c2fs 40 ["-textseg", "1000", "single.o"] = .error "can not open 1000" ∧
    (mainModel c2fs 40 ["single.o"]).map
      (fun o => (o.text.baseAddr, o.text.size, o.data.size, o.bss.size)) =
      .ok (0, 4, 0, 0) := by
  constructor
  · rfl
  · rfl

/-- C3 (counterexample): the claim says a `w1` fixup with `numBytes = 2`,
`offset = 0` against `S = 0xDEADBEEFCAFEBABE` writes `EF BE` at the site.
The code writes `CA FE`: `w1` extracts bits 16..31 (`0xCAFE`, not `0xBEEF`),
and `patchBytes` stores big-endian. -/
theorem C3_counterexample :
    (c3obj.applyFix 0 0 0 "S" c3fix).map
      (fun o => (mapLookup o.text.memory 0, mapLookup o.text.memory 1)) =
      .ok (some 0xCA, some 0xFE) ∧
    (some (0xCA : Nat), some (0xFE : Nat)) ≠ (some 0xEF, some 0xBE) := by
  constructor
  · rfl
  · decide

/-- C3 (amended): the two bytes at the site become `CA FE`: the `w1` window
is `(S >> 16) & 0xFFFF = 0xCAFE`, and `patchBytes` stores its high byte at
the lower offset. -/
theorem C3_amended :
    (c3obj.applyFix 0 0 0 "S" c3fix).map
      (fun o => (mapLookup o.text.memory 0, mapLookup o.text.memory 1)) =
      .ok (some 0xCA, some 0xFE) ∧
    0xCA * 256 + 0xFE = 0xDEADBEEFCAFEBABE / 2 ^ 16 % 65536 := by
  constructor
  · rfl
  · decide

/-- C5 (counterexample): the claim says any `numBytes` that is not an exact
multiple of 8 makes the parse fail fatally.  The input `offset = 8`,
`numBytes = 12` passes both asserts (the second checks divisibility by 4
only) and is silently truncated to `numBytes = 12 / 8 = 1`. -/
theorem C5_counterexample :
    parseFixupFields 8 12 = .ok (1, 1) ∧ 12 % 8 ≠ 0 := by
  constructor
  · rfl
  · decide

/-- C6 (counterexample): with `a.o` referencing `p`, the order
`a.o libp.a libq.a` — one of the orders the claim says must leave a symbol
unresolved — resolves both `p` and `q` and leaves the unresolved set
empty. -/
theorem C6_counterexample :
    (processArgs c6fs 40 ["a.o", "libp.a", "libq.a"]).map
      (fun st => (st.o.unresolved, st.o.symTab.map Prod.fst)) = .ok ([], ["p", "q"]) := by
  rfl

/-- C6 (amended): only the order `a.o libq.a libp.a` leaves one symbol
unresolved (`q`); `a.o libp.a libq.a` resolves both.  The group form
`a.o -( libp.a libq.a -)` resolves both symbols, but `main` then aborts with
a spurious "--start-group not terminated" error because `startGroup` is
never cleared after `--end-group`. -/
theorem C6_amended :
    ((processArgs c6fs 40 ["a.o", "libq.a", "libp.a"]).map
       (fun st => st.o.unresolved) = .ok ["q"]) ∧
    ((processArgs c6fs 40 ["a.o", "libp.a", "libq.a"]).map
       (fun st => st.o.unresolved) = .ok []) ∧
    ((processArgs c6fs 40 ["a.o", "-(", "libp.a", "libq.a", "-)"]).map
       (fun st => (st.o.unresolved, st.o.symTab.map Prod.fst)) = .ok ([], ["p", "q"])) ∧
    (mainModel c6fs 40 ["a.o", "-(", "libp.a", "libq.a", "-)"] =
       .error "--start-group not terminated with --end-group") := by
  refine ⟨?_, ?_, ?_, ?_⟩ <;> rfl

/-- C7 (counterexample): an archive whose members appear in file order
`b.o`, `a.o` is iterated (and hence parsed by the no-index branch of
`addLibOrObject`) in directory order `a.o`, `b.o` — member-name order, not
archive order. -/
theorem C7_counterexample :
    (buildDirectory [("b.o", ["#TEXT"]), ("a.o", ["#TEXT"])]).map (List.map Prod.fst) =
      some ["a.o", "b.o"] ∧ ["a.o", "b.o"] ≠ ["b.o", "a.o"] := by
  constructor
  · rfl
  · decide

/-- C9 (code evaluation): a `#TEXT` byte line `ZZ` is not fatal: the link
continues with the byte value 0 stored at offset 0 (the failed
`istringstream` extraction zeroes the variable; the code only prints a
diagnostic to stderr). -/
theorem C9_code_evaluation :
    (ObjectFile.readSegments {} "bad.o" ["#TEXT", "ZZ"]).map
      (fun o => (o.text.memory, o.text.size)) = .ok ([(0, 0)], 1) := by
  rfl

theorem mapLookup_mapSet_self (m : List (Nat × Nat)) (k v : Nat) :
    mapLookup (mapSet m k v) k = some v := by
  induction m with
  | nil => simp [mapSet, mapLookup]
  | cons hd t ih =>
    obtain ⟨a, b⟩ := hd
    by_cases hk : k = a
    · simp [mapSet, mapLookup, hk]
    · simp [mapSet, mapLookup, hk, ih]

theorem mapLookup_mapSet_ne (m : List (Nat × Nat)) (k v k' : Nat) (h : k' ≠ k) :
    mapLookup (mapSet m k v) k' = mapLookup m k' := by
  induction m with
  | nil => simp [mapSet, mapLookup, h]
  | cons hd t ih =>
    obtain ⟨a, b⟩ := hd
    by_cases hk : k = a
    · subst hk
      simp [mapSet, mapLookup, h]
    · simp [mapSet, mapLookup, hk, ih]

theorem patchBytesLoop_lookup_ge (m : List (Nat × Nat)) (off n value k : Nat)
    (h : n ≤ k) :
    mapLookup (patchBytesLoop m off n value) (off + k) = mapLookup m (off + k) := by
  induction n generalizing m value with
  | zero => rfl
  | succ n ih =>
    rw [patchBytesLoop, ih _ _ (Nat.le_of_succ_le h)]
    exact mapLookup_mapSet_ne _ _ _ _ (by omega)

theorem patchBytesLoop_lookup_lt (m : List (Nat × Nat)) (off n value k : Nat)
    (h : k < n) :
    mapLookup (patchBytesLoop m off n value) (off + k) =
      some (value / 256 ^ (n - 1 - k) % 256) := by
  induction n generalizing m value with
  | zero => omega
  | succ n ih =>
    rw [patchBytesLoop]
    by_cases hk : k < n
    · rw [ih _ _ hk]
      have h1 : (256 : Nat) * 256 ^ (n - 1 - k) = 256 ^ (n - k) := by
        have h2 : n - k = (n - 1 - k) + 1 := by omega
        rw [h2, pow_succ]
        ring
      rw [Nat.div_div_eq_div_mul, h1]
      have h3 : n + 1 - 1 - k = n - k := by omega
      rw [h3]
    · have hk' : k = n := by omega
      subst hk'
      rw [patchBytesLoop_lookup_ge _ _ _ _ _ (le_refl _), mapLookup_mapSet_self]
      simp

theorem sub64_eq (a b : Nat) (hb : b ≤ a) (ha : a < P64) : sub64 a b = a - b := by
  simp only [sub64, P64] at *
  omega

/-- C1 (amended): `patchBytes(addr, n, value)` overwrites the `n` bytes at
offsets `addr - baseAddr` .. `addr - baseAddr + n - 1` with `value` in
big-endian order: byte `k` of the stored range equals
`(value >> (8 * (n - 1 - k))) & 0xFF`, so the most significant stored byte
sits at the lowest offset. -/
theorem C1_amended (s : Segment) (addr n value k : Nat)
    (hb : s.baseAddr ≤ addr) (ha : addr < P64) (hk : k < n) :
    mapLookup (s.patchBytes addr n value).memory (addr - s.baseAddr + k) =
      some (value % P64 / 256 ^ (n - 1 - k) % 256) := by
  show mapLookup (patchBytesLoop s.memory (sub64 addr s.baseAddr) n (value % P64)) _ = _
  rw [sub64_eq addr s.baseAddr hb ha]
  exact patchBytesLoop_lookup_lt _ _ _ _ _ hk

/-- C1 (witness): the amended statement evaluated at `addr = 0`, `n = 2`,
`value = 0x0102`, `k = 0`: the low offset holds the HIGH byte `0x01`. -/
theorem C1_amended_witness :
    mapLookup (c1seg.patchBytes 0 2 0x0102).memory (0 - c1seg.baseAddr + 0) =
      some (0x0102 % P64 / 256 ^ (2 - 1 - 0) % 256) :=
  C1_amended c1seg 0 2 0x0102 0 (by decide) (by decide) (by decide)

/-- C5 (amended): the `#FIXUPS` parser divides `offset` and `numBytes` by 8,
but the fatal checks are `offset % 8 == 0` and `numBytes % 4 == 0`; a
`numBytes` congruent to 4 mod 8 passes the assert and is silently rounded
down by the truncating division. -/
theorem C5_amended (off nb : Nat) :
    (off % 8 ≠ 0 → parseFixupFields off nb = .error "ulmld: assert failed: offset % 8 == 0") ∧
    (off % 8 = 0 → nb % 4 ≠ 0 →
      parseFixupFields off nb = .error "ulmld: assert failed: numBytes % 4 == 0") ∧
    (off % 8 = 0 → nb % 4 = 0 → parseFixupFields off nb = .ok (off / 8, nb / 8)) := by
  refine ⟨fun h => ?_, fun h1 h2 => ?_, fun h1 h2 => ?_⟩
  · unfold parseFixupFields
    rw [if_pos h]
  · unfold parseFixupFields
    rw [if_neg (not_not_intro h1), if_pos h2]
  · unfold parseFixupFields
    rw [if_neg (not_not_intro h1), if_neg (not_not_intro h2)]

/-- C5 (witness): `offset = 8` bits, `numBytes = 4` bits passes both asserts
and comes out as `offset = 1`, `numBytes = 0` — four bits silently truncated
to zero bytes. -/
theorem C5_amended_witness : parseFixupFields 8 4 = .ok (1, 0) :=
  (C5_amended 8 4).2.2 (by decide) (by decide)

/-- C4: for a `relative` fixup with resolved target value `V` and site
address `site` (both 64-bit values), the link fails exactly when
`(V - site) % 4 != 0` (as a mathematical integer — the `std::uint64_t`
subtraction preserves the residue mod 4), and otherwise the value handed to
`patchBytes` is `(V - site) / 4`: exactly that quotient when `site ≤ V`, and
in general its two's-complement residue modulo `2^62` (the 62 value bits
that survive the unsigned division, covering every field of up to 7
bytes). -/
theorem C4_relative_fixup (V site : Nat) (hV : V < P64) (hs : site < P64) :
    ((∃ msg, fixTransform "relative" V site = .error msg) ↔
      ¬ ((4 : Int) ∣ ((V : Int) - (site : Int)))) ∧
    (∀ w, fixTransform "relative" V site = .ok w →
      (w : Int) % 4611686018427387904 = (((V : Int) - (site : Int)) / 4) % 4611686018427387904 ∧
      (site ≤ V → w = (V - site) / 4)) := by
  have hft : fixTransform "relative" V site = relativeFix V site := rfl
  have hV' : V < 18446744073709551616 := hV
  have hs' : site < 18446744073709551616 := hs
  have hd : sub64 V site = if site ≤ V then V - site else V + 18446744073709551616 - site := by
    simp only [sub64, P64]
    split <;> omega
  have hmod : (sub64 V site % 4 = 0) ↔ ((4 : Int) ∣ ((V : Int) - (site : Int))) := by
    rw [hd]
    split <;> omega
  constructor
  · constructor
    · rintro ⟨msg, hmsg⟩
      rw [hft] at hmsg
      unfold relativeFix at hmsg
      split at hmsg
      · rename_i hne
        exact fun hdvd => hne (hmod.mpr hdvd)
      · cases hmsg
    · intro hndvd
      refine ⟨"address for relative jump is not a multiple of 4 ", ?_⟩
      rw [hft]
      unfold relativeFix
      rw [if_pos (fun h0 => hndvd (hmod.mp h0))]
  · intro w hw
    rw [hft] at hw
    unfold relativeFix at hw
    split at hw
    · cases hw
    · rename_i h0
      have h0' : sub64 V site % 4 = 0 := not_not.mp h0
      injection hw with hw'
      subst hw'
      rw [hd] at h0' ⊢
      constructor
      · by_cases hle : site ≤ V
        · rw [if_pos hle] at h0' ⊢
          omega
        · rw [if_neg hle] at h0' ⊢
          omega
      · intro hle
        rw [if_pos hle]

/-- C4 (witness): the relative transform at `V = 8`, `site = 0`. -/
theorem C4_relative_fixup_witness :
    ((∃ msg, fixTransform "relative" 8 0 = .error msg) ↔
      ¬ ((4 : Int) ∣ (((8 : Nat) : Int) - ((0 : Nat) : Int)))) ∧
    (∀ w, fixTransform "relative" 8 0 = .ok w →
      (w : Int) % 4611686018427387904 =
        ((((8 : Nat) : Int) - ((0 : Nat) : Int)) / 4) % 4611686018427387904 ∧
      ((0 : Nat) ≤ (8 : Nat) → w = ((8 : Nat) - (0 : Nat)) / 4)) :=
  C4_relative_fixup 8 0 (by decide) (by decide)

/-- C8: parsing an upper-case (`T`/`D`/`B`) or absolute (`A`) definition of
an ident that the global symbol table already contains makes the link fail
with the "multiple definition" error; the existing entry is never replaced
(the error aborts the whole job before any state escapes). -/
theorem C8_multiple_definition (source : String) (o : ObjectFile) (kind : Char)
    (ident : String) (value : Nat) (e : SymEntry)
    (hk : kind = 'T' ∨ kind = 'D' ∨ kind = 'B' ∨ kind = 'A')
    (hdot : strStarts ident "." = false)
    (hin : strMapLookup o.symTab ident = some e) :
    symStep source o kind ident value = .error (" multiple definition of `" ++ ident) := by
  rcases hk with rfl | rfl | rfl | rfl <;>
    simp +decide [symStep, hdot, hin]

/-- C8 (witness): a second `T main` definition against a table already
holding `main`. -/
theorem C8_multiple_definition_witness :
    symStep "b.o" c8obj 'T' "main" 0 = .error (" multiple definition of `" ++ "main") :=
  C8_multiple_definition "b.o" c8obj 'T' "main" 0 ('T', 0) (Or.inl rfl) (by decide) (by decide)

theorem char_toNat_inj {x y : Char} (h : x.toNat = y.toNat) : x = y :=
  Char.ext (UInt32.ext h)

theorem charListLt_trans : ∀ a b c : List Char,
    charListLt a b = true → charListLt b c = true → charListLt a c = true := by
  intro a
  induction a with
  | nil =>
    intro b c hab hbc
    cases b with
    | nil => cases hab
    | cons y ys =>
      cases c with
      | nil => cases hbc
      | cons z zs => rfl
  | cons x xs ih =>
    intro b c hab hbc
    cases b with
    | nil => cases hab
    | cons y ys =>
      cases c with
      | nil => cases hbc
      | cons z zs =>
        simp only [charListLt] at hab hbc ⊢
        by_cases h1 : x.toNat < y.toNat
        · by_cases h2 : y.toNat < z.toNat
          · rw [if_pos (by omega)]
          · rw [if_neg h2] at hbc
            by_cases h3 : z.toNat < y.toNat
            · rw [if_pos h3] at hbc
              cases hbc
            · rw [if_pos (by omega)]
        · rw [if_neg h1] at hab
          by_cases h1' : y.toNat < x.toNat
          · rw [if_pos h1'] at hab
            cases hab
          · rw [if_neg h1'] at hab
            by_cases h2 : y.toNat < z.toNat
            · rw [if_pos (by omega)]
            · rw [if_neg h2] at hbc
              by_cases h3 : z.toNat < y.toNat
              · rw [if_pos h3] at hbc
                cases hbc
              · rw [if_neg h3] at hbc
                rw [if_neg (by omega), if_neg (by omega)]
                exact ih ys zs hab hbc

theorem charListLt_total : ∀ a b : List Char,
    a = b ∨ charListLt a b = true ∨ charListLt b a = true := by
  intro a
  induction a with
  | nil =>
    intro b
    cases b with
    | nil => exact Or.inl rfl
    | cons y ys => exact Or.inr (Or.inl rfl)
  | cons x xs ih =>
    intro b
    cases b with
    | nil => exact Or.inr (Or.inr rfl)
    | cons y ys =>
      by_cases h1 : x.toNat < y.toNat
      · refine Or.inr (Or.inl ?_)
        simp only [charListLt]
        rw [if_pos h1]
      · by_cases h2 : y.toNat < x.toNat
        · refine Or.inr (Or.inr ?_)
          simp only [charListLt]
          rw [if_pos h2]
        · have hxy : x = y := char_toNat_inj (by omega)
          subst hxy
          rcases ih ys with h | h | h
          · exact Or.inl (by rw [h])
          · refine Or.inr (Or.inl ?_)
            simp only [charListLt]
            rw [if_neg h1, if_neg h2]
            exact h
          · refine Or.inr (Or.inr ?_)
            simp only [charListLt]
            rw [if_neg h2, if_neg h1]
            exact h

theorem strLtB_trans {a b c : String} (h1 : strLtB a b = true) (h2 : strLtB b c = true) :
    strLtB a c = true :=
  charListLt_trans _ _ _ h1 h2

theorem strLtB_total (a b : String) : a = b ∨ strLtB a b = true ∨ strLtB b a = true := by
  rcases charListLt_total a.data b.data with h | h | h
  · left
    cases a
    cases b
    exact congrArg String.mk h
  · exact Or.inr (Or.inl h)
  · exact Or.inr (Or.inr h)

theorem dirInsert_keys_perm (k : String) (v : List String) :
    ∀ (m m' : List (String × List String)), dirInsert k v m = some m' →
      (m'.map Prod.fst).Perm (k :: m.map Prod.fst) := by
  intro m
  induction m with
  | nil =>
    intro m' h
    simp only [dirInsert, Option.some.injEq] at h
    subst h
    simp
  | cons hd t ih =>
    intro m' h
    obtain ⟨k', v'⟩ := hd
    simp only [dirInsert] at h
    split at h
    · cases h
    · split at h
      · injection h with h
        subst h
        simp
      · cases hrec : dirInsert k v t with
        | none =>
          rw [hrec] at h
          cases h
        | some r =>
          rw [hrec] at h
          injection h with h
          subst h
          simp only [List.map_cons]
          exact ((ih r hrec).cons k').trans (List.Perm.swap k k' _)

theorem dirInsert_keys_sorted (k : String) (v : List String) :
    ∀ (m m' : List (String × List String)),
      (m.map Prod.fst).Pairwise (fun a b => strLtB a b = true) →
      dirInsert k v m = some m' →
      (m'.map Prod.fst).Pairwise (fun a b => strLtB a b = true) := by
  intro m
  induction m with
  | nil =>
    intro m' _ h
    simp only [dirInsert, Option.some.injEq] at h
    subst h
    simp
  | cons hd t ih =>
    intro m' hp h
    obtain ⟨k', v'⟩ := hd
    simp only [List.map_cons, List.pairwise_cons] at hp
    obtain ⟨hk', ht⟩ := hp
    simp only [dirInsert] at h
    split at h
    · cases h
    · rename_i hne
      split at h
      · rename_i hlt
        injection h with h
        subst h
        simp only [List.map_cons, List.pairwise_cons]
        refine ⟨?_, hk', ht⟩
        intro x hx
        rcases List.mem_cons.mp hx with hx' | hx'
        · subst hx'
          exact hlt
        · exact strLtB_trans hlt (hk' x hx')
      · rename_i hnlt
        cases hrec : dirInsert k v t with
        | none =>
          rw [hrec] at h
          cases h
        | some r =>
          rw [hrec] at h
          injection h with h
          subst h
          simp only [List.map_cons, List.pairwise_cons]
          refine ⟨?_, ih r ht hrec⟩
          intro x hx
          have hmem := (dirInsert_keys_perm k v t r hrec).mem_iff.mp hx
          rcases List.mem_cons.mp hmem with hx' | hx'
          · subst hx'
            rcases strLtB_total x k' with he | hl | hg
            · exact absurd (by rw [he]; exact beq_self_eq_true k') hne
            · exact absurd hl hnlt
            · exact hg
          · exact hk' x hx'

theorem buildDirectoryFrom_spec :
    ∀ (ms d r : List (String × List String)),
      (d.map Prod.fst).Pairwise (fun a b => strLtB a b = true) →
      buildDirectoryFrom d ms = some r →
      (r.map Prod.fst).Perm (d.map Prod.fst ++ ms.map Prod.fst) ∧
      (r.map Prod.fst).Pairwise (fun a b => strLtB a b = true) := by
  intro ms
  induction ms with
  | nil =>
    intro d r hp h
    simp only [buildDirectoryFrom, Option.some.injEq] at h
    subst h
    exact ⟨by simp, hp⟩
  | cons hd t ih =>
    intro d r hp h
    obtain ⟨k, v⟩ := hd
    simp only [buildDirectoryFrom] at h
    cases hin : dirInsert k v d with
    | none =>
      rw [hin] at h
      cases h
    | some d' =>
      rw [hin] at h
      have hp' := dirInsert_keys_sorted k v d d' hp hin
      obtain ⟨hperm, hsorted⟩ := ih d' r hp' h
      refine ⟨?_, hsorted⟩
      simp only [List.map_cons]
      exact hperm.trans
        (((dirInsert_keys_perm k v d d' hin).append_right _).trans List.perm_middle.symm)

/-- C7 (amended): when an archive has no `__SYMTAB_INDEX`, the no-index
branch of `addLibOrObject` parses each member exactly once (the directory
keys are a permutation of the member names), but in strictly ascending
member-name order (`std::map` iteration), not in archive-file order. -/
theorem C7_amended (ms d : List (String × List String))
    (h : buildDirectory ms = some d) :
    (d.map Prod.fst).Perm (ms.map Prod.fst) ∧
    (d.map Prod.fst).Pairwise (fun a b => strLtB a b = true) := by
  have hs := buildDirectoryFrom_spec ms [] d (by simp) h
  simpa using hs

/-- C7 (witness): the amended statement on the two-member archive with file
order `b.o`, `a.o`. -/
theorem C7_amended_witness :
    (([("a.o", ["#TEXT"]), ("b.o", ["#TEXT"])] : List (String × List String)).map
        Prod.fst).Perm
      (([("b.o", ["#TEXT"]), ("a.o", ["#TEXT"])] : List (String × List String)).map
        Prod.fst) ∧
    (([("a.o", ["#TEXT"]), ("b.o", ["#TEXT"])] : List (String × List String)).map
        Prod.fst).Pairwise (fun a b => strLtB a b = true) :=
  C7_amended [("b.o", ["#TEXT"]), ("a.o", ["#TEXT"])]
    [("a.o", ["#TEXT"]), ("b.o", ["#TEXT"])] (by rfl)

theorem mapKeys_mapSet (m : List (Nat × Nat)) (k v : Nat) :
    mapKeys (mapSet m k v) = if k ∈ mapKeys m then mapKeys m else mapKeys m ++ [k] := by
  induction m with
  | nil => simp [mapSet, mapKeys]
  | cons hd t ih =>
    obtain ⟨a, b⟩ := hd
    by_cases hk : k = a
    · subst hk
      simp [mapSet, mapKeys]
    · rw [show mapSet ((a, b) :: t) k v = (a, b) :: mapSet t k v from by simp [mapSet, hk]]
      simp only [mapKeys, List.map_cons] at ih ⊢
      rw [ih]
      by_cases hm : k ∈ t.map Prod.fst
      · rw [if_pos hm, if_pos (by simp [hm])]
      · rw [if_neg hm, if_neg (by simp [List.mem_cons, hm, hk]), List.cons_append]

theorem mapSet_length (m : List (Nat × Nat)) (k v : Nat) :
    (mapSet m k v).length = if k ∈ mapKeys m then m.length else m.length + 1 := by
  have h1 : (mapSet m k v).length = (mapKeys (mapSet m k v)).length := by
    simp [mapKeys]
  rw [h1, mapKeys_mapSet]
  by_cases hm : k ∈ mapKeys m
  · rw [if_pos hm, if_pos hm]
    simp [mapKeys]
  · rw [if_neg hm, if_neg hm]
    simp [mapKeys]

/-- The store invariant of claim C10: the written offsets are exactly
`0 .. size-1`, and the base address is still the parse-phase value 0. -/
def SegContig (s : Segment) : Prop :=
  mapKeys s.memory = List.range s.memory.length ∧ s.baseAddr = 0

theorem mapSet_contig {m : List (Nat × Nat)} {k : Nat} (v : Nat)
    (hm : mapKeys m = List.range m.length) (hk : k ≤ m.length) :
    mapKeys (mapSet m k v) = List.range (mapSet m k v).length ∧
    m.length ≤ (mapSet m k v).length ∧ k < (mapSet m k v).length := by
  rw [mapKeys_mapSet, mapSet_length]
  by_cases hmem : k ∈ mapKeys m
  · have hklt : k < m.length := by
      rw [hm] at hmem
      exact List.mem_range.mp hmem
    rw [if_pos hmem, if_pos hmem]
    exact ⟨hm, le_refl _, hklt⟩
  · have hkeq : k = m.length := by
      rcases Nat.lt_or_ge k m.length with hlt | hge
      · exact absurd (by rw [hm]; exact List.mem_range.mpr hlt) hmem
      · omega
    rw [if_neg hmem, if_neg hmem]
    subst hkeq
    exact ⟨by rw [hm, List.range_succ], by omega, by omega⟩

theorem pad_contig : ∀ (n : Nat) (s : Segment), SegContig s → SegContig (s.pad n) := by
  intro n
  induction n with
  | zero =>
    intro s h
    exact h
  | succ n ih =>
    intro s h
    rw [Segment.pad]
    exact ih _ ⟨(mapSet_contig _ h.1 (le_refl _)).1, h.2⟩

theorem sub64_zero_idem (addr : Nat) : sub64 (sub64 addr 0) 0 = sub64 addr 0 := by
  simp only [sub64, P64]
  omega

theorem advanceTo_contig (s s' : Segment) (addr : Nat) (h : SegContig s)
    (hok : s.advanceTo addr = .ok s') : SegContig s' := by
  simp only [Segment.advanceTo] at hok
  split at hok
  · cases hok
  · injection hok with hok'
    subst hok'
    exact pad_contig _ _ h

theorem setAlignment_contig (s s' : Segment) (a : Nat) (h : SegContig s)
    (hok : s.setAlignment a = .ok s') : SegContig s' := by
  simp only [Segment.setAlignment] at hok
  split at hok
  · cases hok
  · refine advanceTo_contig
      { s with alignment := if a > s.alignment then a else s.alignment } s' _ ⟨h.1, h.2⟩ hok

theorem insertBytes_contig : ∀ (bs : List Nat) (m : List (Nat × Nat)) (off : Nat),
    mapKeys m = List.range m.length → off ≤ m.length →
    mapKeys (insertBytes m off bs) = List.range (insertBytes m off bs).length := by
  intro bs
  induction bs with
  | nil =>
    intro m off h _
    exact h
  | cons b bs ih =>
    intro m off h hoff
    rw [insertBytes]
    obtain ⟨h1, _, h3⟩ := mapSet_contig b h hoff
    exact ih _ _ h1 (by omega)

theorem insertByteString_contig (s s' : Segment) (addr : Nat) (hex : String)
    (h : SegContig s) (hgate : s.requiresAdvanceTo addr = false)
    (hok : s.insertByteString addr hex = .ok s') : SegContig s' := by
  have hb := h.2
  have hle : sub64 addr s.baseAddr ≤ s.size := by
    unfold Segment.requiresAdvanceTo at hgate
    have hd := of_decide_eq_false hgate
    omega
  have hgate' : Segment.requiresAdvanceTo s (sub64 addr s.baseAddr) = false := by
    unfold Segment.requiresAdvanceTo
    rw [hb] at hle ⊢
    rw [sub64_zero_idem]
    exact decide_eq_false (by omega)
  unfold Segment.insertByteString at hok
  rw [hgate'] at hok
  simp only [Bool.false_eq_true, if_false] at hok
  -- the bind of `.ok s` reduces definitionally
  have hok2 : (if hex.data.length % 2 ≠ 0 then
      (Except.error "ulmld: assert failed: odd number of hex digits" : Except String Segment)
    else
      .ok { s with memory := insertBytes s.memory (sub64 addr s.baseAddr) (hexPairs hex.data) })
      = .ok s' := hok
  split at hok2
  · cases hok2
  · injection hok2 with hok'
    subst hok'
    exact ⟨insertBytes_contig _ _ _ h.1 hle, hb⟩

theorem runOp_contig (s s' : Segment) (op : SegOp) (h : SegContig s)
    (hok : s.runOp op = .ok s') : SegContig s' := by
  cases op with
  | append b =>
    simp only [Segment.runOp] at hok
    injection hok with hok'
    subst hok'
    exact ⟨(mapSet_contig _ h.1 (le_refl _)).1, h.2⟩
  | advance addr =>
    simp only [Segment.runOp] at hok
    exact advanceTo_contig _ _ addr h hok
  | align a =>
    simp only [Segment.runOp] at hok
    exact setAlignment_contig _ _ a h hok
  | insertGated addr hex =>
    simp only [Segment.runOp] at hok
    split at hok
    · cases hok
    · rename_i hgate
      simp only [Bool.not_eq_true] at hgate
      exact insertByteString_contig _ _ addr hex h hgate hok

theorem runOps_contig : ∀ (ops : List SegOp) (s s' : Segment), SegContig s →
    Segment.runOps s ops = .ok s' → SegContig s' := by
  intro ops
  induction ops with
  | nil =>
    intro s s' h hok
    injection hok with h'
    subst h'
    exact h
  | cons op ops ih =>
    intro s s' h hok
    cases hop : Segment.runOp s op with
    | error e =>
      rw [Segment.runOps, List.foldlM_cons, hop] at hok
      cases hok
    | ok s1 =>
      rw [Segment.runOps, List.foldlM_cons, hop] at hok
      exact ih s1 s' (runOp_contig s s1 op h hop) hok

/-- C10: after any sequence of the parse-phase operations `appendByte`,
`advanceTo`, `setAlignment`, and gate-checked `insertByteString` that
succeeds from a fresh segment, the set of written offsets is exactly the
contiguous range `0 .. size-1`: the store has no holes and `size` is one
past the highest written offset. -/
theorem C10_no_holes (ops : List SegOp) (s : Segment)
    (h : Segment.runOps {} ops = .ok s) :
    ∀ k, k ∈ mapKeys s.memory ↔ k < s.size := by
  have hc : SegContig s := runOps_contig ops {} s ⟨rfl, rfl⟩ h
  intro k
  rw [hc.1]
  exact List.mem_range

/-- C10 (witness): the invariant evaluated after a concrete operation
sequence. -/
theorem C10_no_holes_witness :
    Segment.runOps {} c10ops = .ok c10res ∧
    (3 ∈ mapKeys c10res.memory ↔ 3 < c10res.size) :=
  ⟨by rfl, C10_no_holes c10ops c10res (by rfl) 3⟩

end Ulmld
